import Mathlib

/-!
Verification development for the pynwb HDF5 persistence backend
(`src/pynwb/form/backends/hdf5/h5tools.py`) and the shape validation in
`src/pynwb/ecephys.py` (`FeatureExtraction.__init__`).

The Python code is shallowly embedded: every definition mirrors one function
or data structure of the source; stateful code (the reference queue, the
Builder cache, the file handle) is threaded explicitly.  The Builder classes
(`GroupBuilder`, `DatasetBuilder`, `LinkBuilder`, `RegionBuilder`) and the
`DataChunkIterator` live in modules of this repository that are not part of
the provided sources; where needed they are modelled from the spec, and each
such definition says so in its doc comment.
-/

/-- Errors are plain messages, mirroring the Python exception messages. -/
abbrev Err := String

/-- A sample of in-memory Python data, as inspected by `HDF5IO.get_type`
(h5tools.py lines 209-218).  Only the structure that `get_type` looks at is
represented: strings, scalars carrying their Python type name, and sized
collections (`list`/`tuple`/`ndarray`). -/
inductive PyData where
  | str (s : String)
  | float (q : Rat)
  | int (n : Int)
  | obj (tyName : String)
  | list (xs : List PyData)
deriving Repr

/-- A concrete storage type, the result of dtype resolution.  `vlenText` is
`special_dtype(vlen=text_type)`, `vlenBytes` is `special_dtype(vlen=binary_type)`,
`refT`/`regionRefT` are `special_dtype(ref=Reference/RegionReference)`,
`npType` covers the numpy scalar types in the `__dtypes` table, `pyType` is a
plain Python type as returned by `type(data)` in `get_type`, and `compound`
is `np.dtype([...])` built from named sub-fields. -/
inductive HType where
  | vlenText
  | vlenBytes
  | refT
  | regionRefT
  | npType (tag : String)
  | pyType (tag : String)
  | compound (fields : List (String × HType))
deriving Repr

/-- An abstract dtype descriptor as accepted by `__resolve_dtype_helper__`:
a primitive tag (Python `str`), a reference descriptor (Python `dict` with a
`reftype` entry, i.e. a `RefSpec`), or an ordered list of named sub-fields
(compound). -/
inductive Dtype where
  | prim (tag : String)
  | ref (reftype : String)
  | compound (fields : List (String × Dtype))
deriving Repr

/-- `HDF5IO.get_type` (h5tools.py lines 209-218): strings map to
variable-length text; data without `__len__` maps to `type(data)`; a sized
collection recurses into its first element, and an empty sized collection
raises `ValueError('cannot determine type for empty data')`. -/
def get_type : PyData → Except Err HType
  | .str _ => .ok .vlenText
  | .float _ => .ok (.pyType "float")
  | .int _ => .ok (.pyType "int")
  | .obj t => .ok (.pyType t)
  | .list [] => .error "cannot determine type for empty data"
  | .list (x :: _) => get_type x

/-- The `HDF5IO.__dtypes` table (h5tools.py lines 220-245), key for key. -/
def dtypeTable : String → Option HType
  | "float" => some (.npType "float32")
  | "float32" => some (.npType "float32")
  | "double" => some (.npType "float64")
  | "float64" => some (.npType "float64")
  | "long" => some (.npType "int64")
  | "int64" => some (.npType "int64")
  | "int" => some (.npType "int32")
  | "int32" => some (.npType "int32")
  | "int16" => some (.npType "int16")
  | "int8" => some (.npType "int8")
  | "text" => some .vlenText
  | "utf" => some .vlenText
  | "utf8" => some .vlenText
  | "utf-8" => some .vlenText
  | "ascii" => some .vlenBytes
  | "str" => some .vlenBytes
  | "uint32" => some (.npType "uint32")
  | "uint16" => some (.npType "uint16")
  | "uint8" => some (.npType "uint8")
  | "ref" => some .refT
  | "reference" => some .refT
  | "object" => some .refT
  | "region" => some .regionRefT
  | _ => none

/-- A unit of work for dtype-descriptor resolution: one descriptor, or a
compound descriptor's field list. -/
inductive DtypeJob where
  | one (d : Dtype)
  | fields (fs : List (String × Dtype))

/-- The result of one dtype-descriptor resolution job. -/
inductive DtypeOut where
  | one (t : Option HType)
  | fields (ts : List (String × HType))

/-- The recursion of `__resolve_dtype_helper__` (h5tools.py lines 265-270)
as a fueled runner (the fuel models the Python call stack): a string tag and
a `RefSpec` dict are looked up in the `__dtypes` table (`dict.get`, so an
unknown tag yields `None`); a list of named sub-fields is resolved
recursively into `np.dtype([...])`, which raises `TypeError` when a
sub-field resolves to `None`. -/
def resolveDtypeRun : Nat → DtypeJob → Except Err DtypeOut
  | 0, _ => .error "recursion limit"
  | _ + 1, .one (.prim tag) => .ok (.one (dtypeTable tag))
  | _ + 1, .one (.ref reftype) => .ok (.one (dtypeTable reftype))
  | fuel + 1, .one (.compound fs) => do
      match ← resolveDtypeRun fuel (.fields fs) with
      | .fields ts => .ok (.one (some (.compound ts)))
      | _ => .error "internal: fields job returned a descriptor"
  | _ + 1, .fields [] => .ok (.fields [])
  | fuel + 1, .fields ((n, d) :: rest) => do
      match ← resolveDtypeRun fuel (.one d) with
      | .one (some t) => do
          match ← resolveDtypeRun fuel (.fields rest) with
          | .fields ts => .ok (.fields ((n, t) :: ts))
          | _ => .error "internal: fields job returned a descriptor"
      | .one none => .error "np.dtype: data type not understood"
      | _ => .error "internal: one job returned fields"

/-- CPython's default recursion limit, the depth at which the source's
recursive helpers would raise `RecursionError`. -/
def pyRecursionLimit : Nat := 1000

/-- `HDF5IO.__resolve_dtype_helper__` (h5tools.py lines 261-270): `None`
passes through; otherwise run the descriptor resolution. -/
def resolveDtypeHelper : Option Dtype → Except Err (Option HType)
  | none => .ok none
  | some d => do
      match ← resolveDtypeRun pyRecursionLimit (.one d) with
      | .one t => .ok t
      | _ => .error "internal: one job returned fields"

/-- `HDF5IO.__resolve_dtype__` (h5tools.py lines 247-259): run the helper on
the descriptor; if that yields `None`, fall back to introspecting the sample
data with `get_type`.  (In the source, the `except` branch re-raises with a
message built from variables `name`/`parent` that are not in scope, so a
`get_type` failure always surfaces as an exception; we keep the inner
message.) -/
def resolveDtype (dtype : Option Dtype) (data : PyData) : Except Err HType := do
  match ← resolveDtypeHelper dtype with
  | some t => .ok t
  | none => get_type data

/-- Whether a resolved type is a floating-point type: the numpy float types
from the `__dtypes` table, or Python's `float` type as returned by
`type(data)` in `get_type`. -/
def HType.isFloat : HType → Bool
  | .npType "float32" => true
  | .npType "float64" => true
  | .pyType "float" => true
  | _ => false

/-! ## Selections and chunked writing (`__selection_max_bounds__`,
`__chunked_iter_fill__`, h5tools.py lines 431-488) -/

/-- A one-dimensional numpy selection component: an integer index, a slice
(`start:stop`, with `stop = none` for an unbounded slice), or a list/ndarray
(a boolean mask or a fancy integer index, both carried as integer entries:
booleans are 0/1). -/
inductive Sel1 where
  | idx (i : Nat)
  | slc (start : Nat) (stop : Option Nat)
  | arr (xs : List Int)
deriving DecidableEq, Repr

/-- A numpy selection: a single component or a tuple of per-dimension
components. -/
inductive Sel where
  | one (s : Sel1)
  | tup (ss : List Sel1)
deriving DecidableEq, Repr

/-- Positions of the nonzero entries of a list, counting from `i`. -/
def nonzeroPositionsAux : Nat → List Int → List Nat
  | _, [] => []
  | i, x :: rest =>
      if x ≠ 0 then i :: nonzeroPositionsAux (i + 1) rest
      else nonzeroPositionsAux (i + 1) rest

/-- Positions of the nonzero entries of a list (`np.nonzero(selection)[0]`),
in increasing order. -/
def nonzeroPositions (xs : List Int) : List Nat :=
  nonzeroPositionsAux 0 xs

/-- `HDF5IO.__selection_max_bounds__` on one component (h5tools.py lines
434-439): an integer yields `index+1`; a slice yields its `stop` (which may
be `None`); a list/ndarray yields `np.nonzero(selection)[0][-1]+1`, i.e. one
past the position of the LAST NONZERO ENTRY of the list (an `IndexError` is
raised when the list has no nonzero entry). -/
def selMaxBound1 : Sel1 → Except Err (Option Nat)
  | .idx i => .ok (some (i + 1))
  | .slc _ stop => .ok stop
  | .arr xs =>
      match (nonzeroPositions xs).getLast? with
      | some p => .ok (some (p + 1))
      | none => .error "IndexError: index -1 is out of bounds"

/-- `HDF5IO.__selection_max_bounds__` (h5tools.py lines 431-441): a tuple
selection recurses per component. -/
def selMaxBounds : Sel → Except Err (List (Option Nat))
  | .one s => do
      -- in the caller, a scalar bound is wrapped into a 1-tuple
      -- (`if not hasattr(max_bounds, '__len__')`, line 477-478)
      let b ← selMaxBound1 s
      .ok [b]
  | .tup ss => selMaxBoundsList ss
where
  selMaxBoundsList : List Sel1 → Except Err (List (Option Nat))
    | [] => .ok []
    | s :: rest => do
        let b ← selMaxBound1 s
        let tail ← selMaxBoundsList rest
        .ok (b :: tail)

/-- The shape-expansion step of `__chunked_iter_fill__` (h5tools.py lines
479-485): along each dimension, if the chunk's max bound is not `None` and
exceeds the current extent, the extent grows to the bound; otherwise it is
unchanged.  Dimensions beyond the bounds list keep their extent. -/
def expandShape : List Nat → List (Option Nat) → List Nat
  | [], _ => []
  | shape, [] => shape
  | s :: shape, b :: bounds =>
      (match b with
       | some v => if v > s then v else s
       | none => s) :: expandShape shape bounds

/-- `dset.resize(new_shape)` on a one-dimensional dataset: shrink or grow the
stored values, padding new positions with 0. -/
def resize1 (d : List Int) (n : Nat) : List Int :=
  if n ≤ d.length then d.take n else d ++ List.replicate (n - d.length) 0

/-- Write values into a one-dimensional dataset through a boolean mask
(mask length = dataset length): positions with a nonzero mask entry receive
the values in order. -/
def writeMask (d : List Int) (mask : List Int) (vals : List Int) : List Int :=
  match d, mask with
  | [], _ => []
  | ds, [] => ds
  | x :: ds, m :: ms =>
      if m ≠ 0 then
        (vals.headD x) :: writeMask ds ms (vals.tail)
      else
        x :: writeMask ds ms vals

/-- Write values into a one-dimensional dataset at a fancy integer index
list, pairwise. -/
def writeFancy (d : List Int) (idxs : List Int) (vals : List Int) : List Int :=
  match idxs, vals with
  | [], _ => d
  | _, [] => d
  | i :: is, v :: vs => writeFancy (d.set i.toNat v) is vs

/-- `dset[selection] = values` on a one-dimensional dataset (numpy
assignment semantics for the selection kinds produced by
`DataChunkIterator`): an integer sets one element; a bounded slice `a:b`
requires exactly `b - a` values; an unbounded slice `a:` requires exactly
`len - a` values; a list is a boolean mask when its length equals the
dataset's length and all entries are 0/1, and a fancy index list otherwise. -/
def writeSel1 (d : List Int) (s : Sel1) (vals : List Int) : Except Err (List Int) :=
  match s with
  | .idx i =>
      if i < d.length ∧ vals.length = 1 then
        .ok (d.set i (vals.headD 0))
      else .error "could not broadcast"
  | .slc a stop =>
      let b := stop.getD d.length
      if a ≤ b ∧ b ≤ d.length ∧ vals.length = b - a then
        .ok (d.take a ++ vals ++ d.drop b)
      else .error "could not broadcast"
  | .arr xs =>
      if xs.length = d.length ∧ xs.all (fun v => v = 0 ∨ v = 1) then
        .ok (writeMask d xs vals)
      else if xs.all (fun i => 0 ≤ i ∧ i.toNat < d.length) ∧ vals.length = xs.length then
        .ok (writeFancy d xs vals)
      else .error "index out of bounds"

/-- One chunk produced by a `DataChunkIterator`: a target selection plus the
values to write there.  Modelled from the spec: a chunked/streaming source
is "a lazy ... producer of array chunks with target selections" (the
`DataChunkIterator` class is not among the provided sources). -/
structure Chunk1 where
  selection : Sel1
  data : List Int
deriving DecidableEq, Repr

/-- The per-chunk body of `__chunked_iter_fill__` (h5tools.py lines
474-487): compute the chunk's max bounds, wrap a scalar bound into a
1-tuple, expand the dataset's shape along every dimension whose bound
exceeds the current extent, then write the chunk's values into the
selection. -/
def fillChunk1 (d : List Int) (c : Chunk1) : Except Err (List Int) := do
  let mb ← selMaxBound1 c.selection
  let newShape := expandShape [d.length] [mb]
  let d := resize1 d (newShape.headD d.length)
  writeSel1 d c.selection c.data

/-- `HDF5IO.__chunked_iter_fill__` on a one-dimensional dataset (h5tools.py
lines 454-488): create the dataset with the iterator's recommended initial
extent, then fold the per-chunk step over the produced chunks. -/
def chunkedIterFill1 (baseshape : Nat) (chunks : List Chunk1) : Except Err (List Int) :=
  go (List.replicate baseshape 0) chunks
where
  go (d : List Int) : List Chunk1 → Except Err (List Int)
    | [] => .ok d
    | c :: rest => do
        let d' ← fillChunk1 d c
        go d' rest

/-! ## Links (`write_link`, h5tools.py lines 325-342) -/

/-- A link object handed to `parent[name] = link_obj`: `SoftLink(path)` or
`ExternalLink(source, path)`. -/
inductive H5LinkObj where
  | soft (path : String)
  | external (file : String) (path : String)
deriving DecidableEq, Repr

/-- The link-kind decision of `HDF5IO.write_link` (h5tools.py lines
328-342): if the containing file's name equals the target builder's source,
a soft link; otherwise, if the target's source is known (not `None`), an
external link addressed by that source and the target's path; otherwise
`ValueError('cannot create external link to <path>')`.  (`source` is
`None`-or-string in Python; `parent.file.filename == None` is `False`.) -/
def write_link (parentFile : String) (targetSource : Option String)
    (path : String) : Except Err H5LinkObj :=
  if targetSource = some parentFile then
    .ok (.soft path)
  else
    match targetSource with
    | some s => .ok (.external s path)
    | none => .error ("cannot create external link to " ++ path)

/-! ## The physical file model

The HDF5 file is modelled as a tree of groups, datasets and links.  Paths are
absolute strings (`/a/b`), as produced by `__get_path` (h5tools.py lines
315-323) and consumed by `self.__file[path]`. -/

/-- A primitive stored value (attribute values and dataset elements). -/
inductive PVal where
  | int (n : Int)
  | float (q : Rat)
  | str (s : String)
deriving DecidableEq, Repr

/-- A compound-dataset cell after reference resolution. -/
inductive CellVal where
  | val (v : PVal)
  | ref (path : String)
deriving DecidableEq, Repr

/-- The payload of a physical dataset.  `scalar`/`objRef`/`regionRef` are
zero-dimensional; `strList` is a one-dimensional variable-length-string
dataset (`dtype == np.dtype('O')`); `arr` is any other one-dimensional
dataset; `rows` is a one-dimensional compound dataset. -/
inductive HData where
  | scalar (v : PVal)
  | objRef (path : String)
  | regionRef (path : String) (region : Sel1)
  | strList (xs : List String)
  | arr (xs : List PVal)
  | rows (rs : List (List CellVal))
deriving DecidableEq, Repr

/-- A physical node: group, dataset, soft link or external link. -/
inductive HObj where
  | group (children : List (String × HObj)) (attrs : List (String × PVal))
  | dataset (data : HData) (dtype : Option HType) (attrs : List (String × PVal))
  | softLink (path : String)
  | extLink (file : String) (path : String)
deriving Repr

/-- Association-list lookup (Python `dict` access). -/
def alookup {α : Type} : List (String × α) → String → Option α
  | [], _ => none
  | (k, v) :: rest, key => if k = key then some v else alookup rest key

/-- Association-list update (Python `dict` assignment: overwrite in place,
append when absent). -/
def aset {α : Type} : List (String × α) → String → α → List (String × α)
  | [], k, v => [(k, v)]
  | (k', v') :: rest, k, v =>
      if k' = k then (k, v) :: rest else (k', v') :: aset rest k v

/-- Split a character list on `/` (the pieces between the slashes). -/
def splitSlash : List Char → List (List Char)
  | [] => [[]]
  | c :: rest =>
      let ps := splitSlash rest
      if c = '/' then [] :: ps
      else
        match ps with
        | p :: tail => (c :: p) :: tail
        | [] => [[c]]

/-- The components of an absolute path (`/a/b` gives `[a, b]`). -/
def pathParts (p : String) : List String :=
  ((splitSlash p.data).map (fun cs => String.mk cs)).filter (fun s => s ≠ "")

/-- `os.path.basename`: the part after the last slash. -/
def basename (p : String) : String :=
  (((splitSlash p.data).map (fun cs => String.mk cs)).getLast?).getD ""

/-- Join a parent path and a child name the way h5py names nodes
(the root is `/`, its child `x` is `/x`). -/
def joinPath (p k : String) : String :=
  if p = "" ∨ p = "/" then "/" ++ k else p ++ "/" ++ k

/-- Navigate a path's components down a tree of groups.  (Mid-path link
traversal is not modelled; the paths the claims exercise pass through plain
groups only.) -/
def resolveParts : HObj → List String → Option HObj
  | o, [] => some o
  | .group cs _, p :: ps =>
      match alookup cs p with
      | some c => resolveParts c ps
      | none => none
  | _, _ :: _ => none

/-- `self.__file[path]`: resolve an absolute path in a file. -/
def resolvePath (root : HObj) (path : String) : Option HObj :=
  resolveParts root (pathParts path)

/-- Create a node at `parentPath/name` (`parent.create_dataset` /
`parent.create_group` / `parent[name] = link`): an existing sibling of the
same name is an error, never overwritten. -/
def insertAt : HObj → List String → String → HObj → Except Err HObj
  | .group cs as, [], name, obj =>
      if (alookup cs name).isSome then .error ("unable to create (name already exists): " ++ name)
      else .ok (.group (cs ++ [(name, obj)]) as)
  | .group cs as, p :: ps, name, obj =>
      match alookup cs p with
      | some c => do
          let c' ← insertAt c ps name obj
          .ok (.group (aset cs p c') as)
      | none => .error ("KeyError: " ++ p)
  | _, _, _, _ => .error "not a group"

/-! ## The Builder tree handed to `write_builder`

Modelled from the spec (§3): the Builder classes live in `form/build`,
which is not among the provided sources.  A `GroupBuilder` carries named
sub-groups, datasets and links plus attributes; a `DatasetBuilder` carries
`data` and `dtype`; a `LinkBuilder` carries a name and a target builder.
`write_link` uses only the target builder's path (computed by `__get_path`
from the parent chain) and its `source`, so the link model carries those
two directly. -/

/-- A `LinkBuilder`: name, the target's absolute path (what `__get_path`
returns for the target builder), and the target's `source`. -/
structure LinkB where
  name : String
  targetPath : String
  targetSource : Option String
deriving DecidableEq, Repr

/-- A compound-dataset cell before reference resolution: a plain value, or a
Builder/Container (carried by the path `__get_ref` computes for it). -/
inductive CellSrc where
  | val (v : PVal)
  | builder (targetPath : String)
deriving DecidableEq, Repr

/-- The `data` of a `DatasetBuilder`, as a closed tagged variant mirroring
the dispatch in `write_dataset` (h5tools.py lines 370-426): a Python `str`;
a `DataChunkIterator` (modelled from the spec as a produced chunk list plus
the recommended initial extent and the element dtype); an existing h5py
`Dataset` handle; a `Builder` (carried by its `__get_path` path, with the
writing builder's `region` field alongside); compound rows; an in-memory
sequence; or a scalar.  (The `Iterable`-but-not-in-memory branch, line 421,
wraps the data in a `DataChunkIterator` and reduces to the chunked case.) -/
inductive DData where
  | scalarStr (s : String)
  | chunked (baseshape : Nat) (dtype : HType) (chunks : List Chunk1)
  | extDataset (file : String) (path : String)
  | builderRef (targetPath : String) (region : Option Sel1)
  | rows (rs : List (List CellSrc))
  | pyList (xs : List PyData)
  | scalar (v : PyData)
deriving Repr

/-- A Builder-tree node (GroupBuilder or DatasetBuilder), modelled from the
spec (§3). -/
inductive Bldr where
  | group (name : String) (source : Option String) (attrs : List (String × PVal))
      (groups : List Bldr) (datasets : List Bldr) (links : List LinkB)
  | dataset (name : String) (source : Option String) (attrs : List (String × PVal))
      (dtype : Option Dtype) (ddata : DData)
deriving Repr

/-- The links map of a GroupBuilder (empty for a DatasetBuilder). -/
def Bldr.linksOf : Bldr → List LinkB
  | .group _ _ _ _ _ ls => ls
  | .dataset _ _ _ _ _ => []

/-! ## Write path -/

/-- One entry of the write trace. -/
inductive WEvent where
  | createGroup (path : String)
  | createDataset (path : String)
  | createLink (path : String)
  | setAttrs (path : String)
  | refWrite (path : String)
deriving DecidableEq, Repr

/-- Whether an event is a deferred reference write. -/
def WEvent.isRefWrite : WEvent → Bool
  | .refWrite _ => true
  | _ => false

/-- A queued zero-argument deferred action (`_filler` closures queued by
`__queue_ref`): either one reference-valued dataset write (lines 409-419,
carrying the optional region), or one compound dataset write whose listed
cell positions hold references (lines 378-389). -/
inductive RefAct where
  | refFill (parentPath name targetPath : String) (region : Option Sel1)
      (dtype : HType) (attrs : List (String × PVal))
  | rowsFill (parentPath name : String) (rs : List (List CellSrc))
      (refIdxs : List Nat) (dtype : HType) (attrs : List (String × PVal))
deriving Repr

/-- The trace event a deferred action produces when run. -/
def RefAct.event : RefAct → WEvent
  | .refFill ppath name _ _ _ _ => .refWrite (joinPath ppath name)
  | .rowsFill ppath name _ _ _ _ => .refWrite (joinPath ppath name)

/-- A resolved reference value. -/
inductive RefVal where
  | obj (path : String)
  | region (path : String) (sel : Sel1)
deriving DecidableEq, Repr

/-- `HDF5IO.__get_ref` (h5tools.py lines 521-537), with the
container-to-path steps (lines 522-530) collapsed into the `path` argument:
with a region, `self.__file[path]` must be a `Dataset`
(`ValueError('cannot create region reference without Dataset')` otherwise)
and a region reference is returned; without a region, `self.__file[path].ref`
is returned.  A missing path is a `KeyError` either way. -/
def getRef (file : HObj) (path : String) (region : Option Sel1) :
    Except Err RefVal :=
  match resolvePath file path with
  | none => .error ("KeyError: " ++ path)
  | some o =>
      match region with
      | some sel =>
          match o with
          | .dataset _ _ _ => .ok (.region path sel)
          | _ => .error "cannot create region reference without Dataset"
      | none => .ok (.obj path)

/-- `HDF5IO.__is_ref` (h5tools.py lines 539-545): a `RefSpec` is a
reference; otherwise compare against `DatasetBuilder.OBJECT_REF_TYPE` /
`REGION_REF_TYPE` (modelled from the spec as the `object` / `region` tags,
matching the keys used at lines 407-408 and the `__dtypes` table). -/
def isRefDtype : Dtype → Bool
  | .ref _ => true
  | .prim tag => tag = "object" || tag = "region"
  | .compound _ => false

/-- Resolve the cells of one compound row at drain time (the loop in the
`_filler` at lines 380-385): cells at the listed reference positions are
replaced by `__get_ref(item[i])`, the others pass through. -/
def resolveCells (file : HObj) (refIdxs : List Nat) :
    Nat → List CellSrc → Except Err (List CellVal)
  | _, [] => .ok []
  | i, c :: rest => do
      let cell ← if refIdxs.contains i then
          match c with
          | .builder p => do
              let r ← getRef file p none
              match r with
              | .obj q => .ok (CellVal.ref q)
              | .region q _ => .ok (CellVal.ref q)
          | .val _ => .error "reference field does not hold a Builder"
        else
          match c with
          | .val v => .ok (CellVal.val v)
          | .builder _ => .error "cannot store a Builder in a plain field"
      let tail ← resolveCells file refIdxs (i + 1) rest
      .ok (cell :: tail)

/-- Resolve every row of a compound dataset at drain time. -/
def resolveRows (file : HObj) (refIdxs : List Nat) :
    List (List CellSrc) → Except Err (List (List CellVal))
  | [] => .ok []
  | r :: rest => do
      let r' ← resolveCells file refIdxs 0 r
      let tail ← resolveRows file refIdxs rest
      .ok (r' :: tail)

/-- Run one queued deferred action against the current file: resolve the
reference(s) and create the dataset at its recorded parent path, attaching
its attributes (matching the `_filler` bodies; the whole deferred write is
traced as one `refWrite` event). -/
def applyRefAct (file : HObj) : RefAct → Except Err (HObj × WEvent)
  | .refFill ppath name tpath region dt attrs => do
      let r ← getRef file tpath region
      let data := match r with
        | .obj p => HData.objRef p
        | .region p s => HData.regionRef p s
      let f' ← insertAt file (pathParts ppath) name (.dataset data (some dt) attrs)
      .ok (f', .refWrite (joinPath ppath name))
  | .rowsFill ppath name rs refIdxs dt attrs => do
      let rs' ← resolveRows file refIdxs rs
      let f' ← insertAt file (pathParts ppath) name (.dataset (.rows rs') (some dt) attrs)
      .ok (f', .refWrite (joinPath ppath name))

/-- Drain a list of deferred actions front to back against the evolving
file, collecting one trace event per action. -/
def drainGo : HObj → List RefAct → Except Err (HObj × List WEvent)
  | f, [] => .ok (f, [])
  | f, a :: rest => do
      let (f', e) ← applyRefAct f a
      let (f'', es) ← drainGo f' rest
      .ok (f'', e :: es)

/-- `HDF5IO.__add_refs` (h5tools.py lines 196-207):
`while len(queue) > 0: call = queue.pop(); call()`.  `list.pop()` removes
the last element, so the queue is drained in reverse enqueue order
(last-in-first-out) until it is empty; no action enqueues further actions. -/
def addRefs (f : HObj) (queue : List RefAct) : Except Err (HObj × List WEvent) :=
  drainGo f queue.reverse

/-- `HDF5IO.set_attributes` (h5tools.py lines 272-286) for the scalar
attribute values the claims exercise: each value is stored unchanged on the
object.  (The list-valued branch at lines 278-285, which converts string
tuples to fixed-width byte arrays, is outside every claim and not
modelled.) -/
def set_attributes (obj : HObj) (attrs : List (String × PVal)) : HObj :=
  match obj with
  | .group cs _ => .group cs attrs
  | .dataset d dt _ => .dataset d dt attrs
  | o => o

/-- A Python scalar as a stored value (`str`/`int`/`float`); containers and
other objects have no direct storage form. -/
def pyToPVal : PyData → Option PVal
  | .str s => some (.str s)
  | .int n => some (.int n)
  | .float q => some (.float q)
  | _ => none

/-- Convert a Python sequence element-wise into stored values. -/
def toPVals : List PyData → Except Err (List PVal)
  | [] => .ok []
  | x :: rest => do
      match pyToPVal x with
      | some v => do
          let tail ← toPVals rest
          .ok (v :: tail)
      | none => .error "cannot store nested or opaque data"

/-- Modelled from the spec (§4.2): `get_shape` / `infer_shape` (from
`form/data_utils`, not among the provided sources) measures nesting depth by
successive length lookups until a non-sized element is reached. -/
def getShape : PyData → List Nat
  | .list [] => [0]
  | .list (x :: xs) => (x :: xs).length :: getShape x
  | _ => []

/-- All elements of a Python sequence as strings (for variable-length string
datasets). -/
def allStrs : List PyData → Option (List String)
  | [] => some []
  | .str s :: rest => (allStrs rest).map (fun t => s :: t)
  | _ => none

/-- `HDF5IO.__scalar_fill__` (h5tools.py lines 443-452): the dtype argument
is a descriptor (string/list/None), never a Python `type`, so resolution
always runs; then a zero-dimensional dataset holding the value is created. -/
def scalarFill (name : String) (data : PyData) (dtype : Option Dtype) :
    Except Err (String × HObj) := do
  let dt ← resolveDtype dtype data
  match pyToPVal data with
  | some v => .ok (name, .dataset (.scalar v) (some dt) [])
  | none => .error ("Could not create scalar dataset " ++ name)

/-- `HDF5IO.__list_fill__` (h5tools.py lines 490-514): resolve the dtype
(`data_shape` is `(len(data),)` for an `np.dtype` result and
`get_shape(data)` otherwise — either way its head is `len(data)`, so the
`len(data) > dset.shape[0]` resize check, lines 506-509, is a no-op here),
create the dataset and copy the values in.  A variable-length string dtype
stores a string list (object dtype); anything else stores the scalar
values. -/
def listFill (name : String) (data : List PyData) (dtypeSpec : Option Dtype) :
    Except Err (String × HObj) := do
  let dt ← resolveDtype dtypeSpec (.list data)
  match dt with
  | .vlenText =>
      match allStrs data with
      | some ss => .ok (name, .dataset (.strList ss) (some dt) [])
      | none => .error ("Could not create dataset " ++ name)
  | .vlenBytes =>
      match allStrs data with
      | some ss => .ok (name, .dataset (.strList ss) (some dt) [])
      | none => .error ("Could not create dataset " ++ name)
  | _ => do
      let vals ← toPVals data
      .ok (name, .dataset (.arr vals) (some dt) [])

/-- Rows whose cells are all plain values (a compound dataset without
reference fields). -/
def rowsAsVals : List (List CellSrc) → Except Err (List (List CellVal))
  | [] => .ok []
  | r :: rest => do
      let r' ← rowAsVals r
      let tail ← rowsAsVals rest
      .ok (r' :: tail)
where
  rowAsVals : List CellSrc → Except Err (List CellVal)
    | [] => .ok []
    | .val v :: cs => do
        let tail ← rowAsVals cs
        .ok (.val v :: tail)
    | .builder _ :: _ => .error "cannot store a Builder in a plain field"

/-- `HDF5IO.write_dataset` (h5tools.py lines 354-429).  Returns the created
children (none when the write is deferred), the trace events, and the
deferred actions queued by `__queue_ref`.  Branches in source order:

* a list dtype (compound): find the reference fields with `__is_ref`; if
  any, resolve the compound dtype eagerly (line 377 — the descriptor is a
  list, so `__resolve_dtype_helper__` decides and the data is not consulted)
  and queue a `_filler`; otherwise `__list_fill__` the rows;
* a `str` is written by `__scalar_fill__` with NO dtype argument (line 395);
* a `DataChunkIterator` is written by `__chunked_iter_fill__`;
* an h5py `Dataset` is linked, not copied: an external link when its file
  differs from the containing file, else a soft link — and `set_attributes`
  is SKIPPED for links (line 427);
* a `Builder` defers: `_dtype = self.__dtypes[dtype]` eagerly (`KeyError`
  when absent), then a `_filler` passing `builder.region` exactly when
  `dtype == 'region'`;
* a sized sequence is written by `__list_fill__`;
* anything else by `__scalar_fill__`. -/
def writeDataset (selfPath ppath name : String) (attrs : List (String × PVal))
    (dtype : Option Dtype) (dd : DData) :
    Except Err (List (String × HObj) × List WEvent × List RefAct) :=
  let dpath := joinPath ppath name
  match dtype with
  | some (.compound fields) =>
      let refIdxs := (List.range fields.length).filter
        (fun i => isRefDtype (fields.getD i ("", .prim "")).2)
      if refIdxs.isEmpty then
        match dd with
        | .rows rs => do
            let dt ← resolveDtype (some (.compound fields)) (.list [])
            let rs' ← rowsAsVals rs
            .ok ([(name, .dataset (.rows rs') (some dt) attrs)],
                 [.createDataset dpath, .setAttrs dpath], [])
        | _ => .error ("Could not create dataset " ++ name)
      else
        match dd with
        | .rows rs => do
            let dt ← resolveDtype (some (.compound fields)) (.list [])
            .ok ([], [], [.rowsFill ppath name rs refIdxs dt attrs])
        | _ => .error ("Could not create dataset " ++ name)
  | dtype =>
      match dd with
      | .scalarStr s => do
          let (n, obj) ← scalarFill name (.str s) none
          .ok ([(n, set_attributes obj attrs)],
               [.createDataset dpath, .setAttrs dpath], [])
      | .chunked baseshape dt chunks => do
          let vals ← chunkedIterFill1 baseshape chunks
          .ok ([(name, .dataset (.arr (vals.map PVal.int)) (some dt) attrs)],
               [.createDataset dpath, .setAttrs dpath], [])
      | .extDataset file path =>
          let lnk := if file ≠ selfPath then HObj.extLink file path
                     else HObj.softLink path
          .ok ([(name, lnk)], [.createLink dpath], [])
      | .builderRef tpath region =>
          match dtype with
          | some (.prim tag) =>
              match dtypeTable tag with
              | some dt =>
                  let reg := if tag = "region" then region else none
                  .ok ([], [], [.refFill ppath name tpath reg dt attrs])
              | none => .error ("KeyError: " ++ tag)
          | _ => .error "KeyError: unhashable dtype"
      | .rows _ => .error ("Could not create dataset " ++ name)
      | .pyList xs => do
          let (n, obj) ← listFill name xs dtype
          .ok ([(n, set_attributes obj attrs)],
               [.createDataset dpath, .setAttrs dpath], [])
      | .scalar v => do
          let (n, obj) ← scalarFill name v dtype
          .ok ([(n, set_attributes obj attrs)],
               [.createDataset dpath, .setAttrs dpath], [])

/-- `HDF5IO.write_link` over a group's links map (h5tools.py lines 307-310,
325-342): decide the link kind with `write_link` and store the link object
under the link's name (`parent[name] = link_obj`). -/
def writeLinks (selfPath gpath : String) :
    List LinkB → Except Err (List (String × HObj) × List WEvent)
  | [] => .ok ([], [])
  | l :: rest => do
      let lobj ← write_link selfPath l.targetSource l.targetPath
      let child := match lobj with
        | .soft p => (l.name, HObj.softLink p)
        | .external f p => (l.name, HObj.extLink f p)
      let (cs, es) ← writeLinks selfPath gpath rest
      .ok (child :: cs, .createLink (joinPath gpath l.name) :: es)

/-- Assemble a group's children, failing on a duplicate sibling name (the
second `create_*` call with the same name raises in h5py). -/
def buildChildren : List (String × HObj) → Except Err (List (String × HObj))
  | [] => .ok []
  | (k, v) :: rest =>
      if (alookup rest k).isSome then
        .error ("unable to create (name already exists): " ++ k)
      else do
        let tail ← buildChildren rest
        .ok ((k, v) :: tail)

/-- A unit of work for the write walker: one builder, or a list of sibling
builders. -/
inductive WJob where
  | one (b : Bldr) (ppath : String)
  | many (bs : List Bldr) (ppath : String)

/-- `HDF5IO.write_group` (h5tools.py lines 288-313) as a fueled walker
(the fuel models the Python call stack): create the group, recurse into
sub-groups, then datasets, then links, then set the attributes.  Dataset
builders dispatch to `writeDataset`. -/
def writeRun (selfPath : String) : Nat → WJob →
    Except Err (List (String × HObj) × List WEvent × List RefAct)
  | 0, _ => .error "recursion limit"
  | _ + 1, .many [] _ => .ok ([], [], [])
  | fuel + 1, .many (b :: rest) ppath => do
      let (c1, e1, r1) ← writeRun selfPath fuel (.one b ppath)
      let (c2, e2, r2) ← writeRun selfPath fuel (.many rest ppath)
      .ok (c1 ++ c2, e1 ++ e2, r1 ++ r2)
  | fuel + 1, .one b ppath =>
      match b with
      | .dataset name _ attrs dtype dd => writeDataset selfPath ppath name attrs dtype dd
      | .group name _ attrs gs ds ls => do
          let gpath := joinPath ppath name
          let (gc, ge, gr) ← writeRun selfPath fuel (.many gs gpath)
          let (dc, de, dr) ← writeRun selfPath fuel (.many ds gpath)
          let (lc, le) ← writeLinks selfPath gpath ls
          let children ← buildChildren (gc ++ dc ++ lc)
          .ok ([(name, set_attributes (.group children []) attrs)],
               .createGroup gpath :: (ge ++ de ++ le ++ [.setAttrs gpath]),
               gr ++ dr)

/-- The main pass of `HDF5IO.write_builder` (h5tools.py lines 185-193):
write the root builder's sub-groups, then its datasets, then set the root
attributes.  The root builder's LINKS map is never visited (there is no
links loop in `write_builder`, unlike `write_group`).  Returns the file,
the structural trace, and the queued deferred actions. -/
def writeBuilderCore (fuel : Nat) (selfPath : String) (T : Bldr) :
    Except Err (HObj × List WEvent × List RefAct) :=
  match T with
  | .dataset _ _ _ _ _ => .error "write_builder requires a GroupBuilder"
  | .group _ _ attrs gs ds _links => do
      let (gc, ge, gr) ← writeRun selfPath fuel (.many gs "")
      let (dc, de, dr) ← writeRun selfPath fuel (.many ds "")
      let children ← buildChildren (gc ++ dc)
      .ok (set_attributes (.group children []) attrs,
           ge ++ de ++ [.setAttrs "/"], gr ++ dr)

/-- The outcome of a write session: the written file with its trace, plus
the state of the physical file handle at exit. -/
structure WResult where
  file : Except Err (HObj × List WEvent)
  fileOpen : Bool

/-- `HDF5IO.write_builder` (h5tools.py lines 185-194): `self.open()` at
entry, the main structural pass, then `self.__add_refs()`.  No exit path
calls `self.close()` (lines 182-183) — the handle is open at exit. -/
def write_builder (fuel : Nat) (selfPath : String) (T : Bldr) : WResult :=
  { file := do
      let (root, mainEv, queue) ← writeBuilderCore fuel selfPath T
      let (root', refEv) ← addRefs root queue
      .ok (root', mainEv ++ refEv)
    fileOpen := true }

/-! ## Read path (`read_builder`, `__read_group`, `__read_dataset`,
`__set_built`, `__get_built`; h5tools.py lines 84-176) -/

/-- The `data` of a read-back DatasetBuilder: a scalar, a raw reference
value read as a scalar, a materialized list of strings, or a lazy handle to
the stored array (`kwargs["data"] = h5obj`, line 174). -/
inductive RData where
  | scalar (v : PVal)
  | ref (path : String)
  | strList (xs : List String)
  | handle (file : String) (path : String)
deriving DecidableEq, Repr

/-- A read-back Builder (Group/Dataset/Region/Link), modelled from the spec
(§3); constructed by `__read_group` / `__read_dataset`. -/
inductive RBuilder where
  | group (name : String) (source : String) (attrs : List (String × PVal))
      (groups : List (String × RBuilder)) (datasets : List (String × RBuilder))
      (links : List (String × RBuilder))
  | dataset (name : String) (source : String) (attrs : List (String × PVal))
      (dtype : Option HType) (rdata : RData)
  | region (name : String) (source : String) (attrs : List (String × PVal))
      (region : Sel1) (target : RBuilder)
  | link (name : String) (target : RBuilder) (source : String)
deriving Repr

/-- A read-back builder's name. -/
def RBuilder.nameOf : RBuilder → String
  | .group n _ _ _ _ _ => n
  | .dataset n _ _ _ _ => n
  | .region n _ _ _ _ => n
  | .link n _ _ => n

/-- The links map of a read-back GroupBuilder. -/
def RBuilder.linksOf : RBuilder → List (String × RBuilder)
  | .group _ _ _ _ _ ls => ls
  | _ => []

/-- The cache key of `__set_built` / `__get_built`: (file name, path). -/
abbrev BKey := String × String

/-- The read-session state: the `self.__built` cache, plus an
instrumentation log recording, in order, the key of every physical node for
which a fresh Builder was constructed (one entry per `__read_group` /
`__read_dataset` call on a keyed node). -/
structure RState where
  built : List (BKey × RBuilder)
  log : List BKey
deriving Repr

/-- `HDF5IO.__get_built` (h5tools.py lines 96-101). -/
def lookupBuilt : List (BKey × RBuilder) → BKey → Option RBuilder
  | [], _ => none
  | (k, b) :: rest, key => if k = key then some b else lookupBuilt rest key

/-- `HDF5IO.__set_built` (h5tools.py lines 93-94):
`setdefault(path, builder)` — insert only when the key is absent; an
existing entry is never replaced. -/
def setBuilt (built : List (BKey × RBuilder)) (k : BKey) (b : RBuilder) :
    List (BKey × RBuilder) :=
  if (lookupBuilt built k).isSome then built else built ++ [(k, b)]

/-- The file system visible to one read session: file name → root group.
`self.__path` opens the session's own file; external links open others. -/
structure FS where
  files : List (String × HObj)

/-- The accumulator for one group's children (the `kwargs` dicts of
`__read_group`, lines 104-109). -/
structure RAcc where
  groups : List (String × RBuilder)
  datasets : List (String × RBuilder)
  links : List (String × RBuilder)

/-- `obj_type[builder.name] = builder` (line 142): file the freshly built or
cached child under its own name in the groups or datasets dict. -/
def accInsert (acc : RAcc) (isDs : Bool) (b : RBuilder) : RAcc :=
  if isDs then { acc with datasets := aset acc.datasets b.nameOf b }
  else { acc with groups := aset acc.groups b.nameOf b }

/-- A unit of work for the read walker: read one physical object into a
Builder, or fold a group's remaining children into an accumulator. -/
inductive RJob where
  | obj (o : HObj) (fpath : String) (opath : String) (name : String)
  | kids (cs : List (String × HObj)) (fpath : String) (gpath : String) (acc : RAcc)

/-- The read walker's result for one job. -/
inductive ROut where
  | builder (b : RBuilder)
  | acc (a : RAcc)

/-- `HDF5IO.__read_group` and `HDF5IO.__read_dataset` (h5tools.py lines
103-176) as one fueled walker (the fuel models the Python call stack; the
source recurses unboundedly through links).

For a group, fold over its children (`for k in h5obj`): a soft or external
link resolves its target, reuses the cached Builder for
`(target file, target path)` if present, otherwise reads the target and
caches it, then stores `LinkBuilder(k, builder, source=self.__path)` in the
links dict UNDER THE BASENAME OF THE TARGET PATH (line 128); a plain child
reuses the cached Builder for `(file, path)` if present, otherwise reads
and caches it, and stores it under its own name.

For a dataset: a zero-dimensional region-reference scalar reads the
referenced dataset (with NO cache lookup first, lines 162-164), caches it
via `setdefault`, and yields a RegionBuilder carrying the selection and the
freshly read target; any other scalar is read directly; a one-dimensional
object-dtype dataset materializes a string list; anything else stays a lazy
handle.  Every constructed Builder logs its `(file, path)` key. -/
def readRun (fs : FS) (selfPath : String) : Nat → RJob → RState →
    Except Err (ROut × RState)
  | 0, _, _ => .error "recursion limit"
  | fuel + 1, .obj o fpath opath name, st =>
      let st := { st with log := st.log ++ [(fpath, opath)] }
      match o with
      | .group cs attrs => do
          let (out, st') ← readRun fs selfPath fuel (.kids cs fpath opath ⟨[], [], []⟩) st
          match out with
          | .acc a =>
              .ok (.builder (.group name selfPath attrs a.groups a.datasets a.links), st')
          | _ => .error "internal: kids job returned a builder"
      | .dataset d dtype attrs =>
          match d with
          | .scalar v =>
              .ok (.builder (.dataset name selfPath attrs dtype (.scalar v)), st)
          | .objRef p =>
              .ok (.builder (.dataset name selfPath attrs dtype (.ref p)), st)
          | .regionRef tpath sel => do
              match alookup fs.files fpath with
              | none => .error ("unable to open file " ++ fpath)
              | some troot =>
                  match resolvePath troot tpath with
                  | some (.dataset td tdt tat) => do
                      let (tout, st₁) ←
                        readRun fs selfPath fuel
                          (.obj (.dataset td tdt tat) fpath tpath (basename tpath)) st
                      match tout with
                      | .builder tb =>
                          let st₂ := { st₁ with built := setBuilt st₁.built (fpath, tpath) tb }
                          .ok (.builder (.region name selfPath attrs sel tb), st₂)
                      | _ => .error "internal: obj job returned an accumulator"
                  | _ => .error ("region reference target is not a dataset: " ++ tpath)
          | .strList xs =>
              .ok (.builder (.dataset name selfPath attrs dtype (.strList xs)), st)
          | .arr _ =>
              .ok (.builder (.dataset name selfPath attrs dtype (.handle fpath opath)), st)
          | .rows _ =>
              .ok (.builder (.dataset name selfPath attrs dtype (.handle fpath opath)), st)
      | .softLink _ => .error "internal: a link is read from its parent group"
      | .extLink _ _ => .error "internal: a link is read from its parent group"
  | _ + 1, .kids [] _ _ acc, st => .ok (.acc acc, st)
  | fuel + 1, .kids ((k, c) :: rest) fpath gpath acc, st =>
      match c with
      | .softLink tpath => do
          match alookup fs.files fpath with
          | none => .error ("unable to open file " ++ fpath)
          | some troot =>
              match resolvePath troot tpath with
              | none => .error ("dangling link: " ++ tpath)
              | some tobj => do
                  let (b, st') ←
                    match lookupBuilt st.built (fpath, tpath) with
                    | some b => .ok (b, st)
                    | none => do
                        let (out, st₁) ←
                          readRun fs selfPath fuel (.obj tobj fpath tpath (basename tpath)) st
                        match out with
                        | .builder b =>
                            .ok (b, { st₁ with built := setBuilt st₁.built (fpath, tpath) b })
                        | _ => .error "internal: obj job returned an accumulator"
                  let acc' := { acc with
                    links := aset acc.links (basename tpath) (.link k b selfPath) }
                  readRun fs selfPath fuel (.kids rest fpath gpath acc') st'
      | .extLink lf tpath => do
          match alookup fs.files lf with
          | none => .error ("unable to open file " ++ lf)
          | some troot =>
              match resolvePath troot tpath with
              | none => .error ("dangling link: " ++ tpath)
              | some tobj => do
                  let (b, st') ←
                    match lookupBuilt st.built (lf, tpath) with
                    | some b => .ok (b, st)
                    | none => do
                        let (out, st₁) ←
                          readRun fs selfPath fuel (.obj tobj lf tpath (basename tpath)) st
                        match out with
                        | .builder b =>
                            .ok (b, { st₁ with built := setBuilt st₁.built (lf, tpath) b })
                        | _ => .error "internal: obj job returned an accumulator"
                  let acc' := { acc with
                    links := aset acc.links (basename tpath) (.link k b selfPath) }
                  readRun fs selfPath fuel (.kids rest fpath gpath acc') st'
      | node => do
          let cpath := joinPath gpath k
          let isDs := match node with
            | .dataset _ _ _ => true
            | _ => false
          let (b, st') ←
            match lookupBuilt st.built (fpath, cpath) with
            | some b => .ok (b, st)
            | none => do
                let (out, st₁) ← readRun fs selfPath fuel (.obj node fpath cpath k) st
                match out with
                | .builder b =>
                    .ok (b, { st₁ with built := setBuilt st₁.built (fpath, cpath) b })
                | _ => .error "internal: obj job returned an accumulator"
          readRun fs selfPath fuel (.kids rest fpath gpath (accInsert acc isDs b)) st'

/-- The outcome of a read session: the root GroupBuilder with the final
session state, plus the state of the physical file handle at exit. -/
structure RResult where
  builder : Except Err (RBuilder × RState)
  fileOpen : Bool

/-- `HDF5IO.read_builder` (h5tools.py lines 84-91): `self.open()`, then
`__read_group(self.__file, ROOT_NAME)` (the per-handle `self.__read` memo
only matters for repeated calls on one handle; a single call is modelled).
No exit path calls `self.close()` — the handle is open at exit. -/
def read_builder (fuel : Nat) (fs : FS) (selfPath : String) : RResult :=
  { builder := do
      match alookup fs.files selfPath with
      | none => .error ("unable to open file " ++ selfPath)
      | some root => do
          let (out, st) ← readRun fs selfPath fuel (.obj root selfPath "/" "root") ⟨[], []⟩
          match out with
          | .builder b => .ok (b, st)
          | _ => .error "internal: obj job returned an accumulator"
    fileOpen := true }

/-! ## Shape validation in `FeatureExtraction.__init__`
(`src/pynwb/ecephys.py` lines 360-399) -/

/-- The outcome of one shape comparison (`assertEqualShape` result object:
a flag plus a message). -/
structure ShapeCheck where
  result : Bool
  message : String
deriving DecidableEq, Repr

/-- Modelled from the spec: `assertEqualShape(data1, data2, axes1, axes2,
name1, name2)` (from `form/utils`, not among the provided sources) compares
the given axis of each array's shape and, on mismatch, reports a message
naming both arrays and axes.  The shapes here are fully determined, so the
`ignore_undetermined` flag passed at the call sites has no effect. -/
def assertEqualShape (shape1 shape2 : List Nat) (axes1 axes2 : Nat)
    (name1 name2 : String) : ShapeCheck :=
  if shape1.getD axes1 0 = shape2.getD axes2 0 then ⟨true, ""⟩
  else ⟨false, name1 ++ " axis " ++ toString axes1 ++ " and " ++ name2 ++
               " axis " ++ toString axes2 ++ " do not match"⟩

/-- The validation in `FeatureExtraction.__init__` (ecephys.py lines
367-399), over the shapes of its array arguments: three validators compare
`features` axis 0 with `times` axis 0, `features` axis 1 with `electrodes`
axis 0, and `features` axis 2 with `description` axis 0 (named
`feature_shape` vs `times` / `electrodes` / `description`); then
`raise_error |= not sv.result` over all three and the failing messages are
joined (each followed by a newline) into ONE combined `ValueError`. -/
def featureExtractionInit (electrodes description times : Nat)
    (features : List Nat) : Except Err Unit :=
  let svs := [assertEqualShape features [times] 0 0 "feature_shape" "times",
              assertEqualShape features [electrodes] 1 0 "feature_shape" "electrodes",
              assertEqualShape features [description] 2 0 "feature_shape" "description"]
  let raiseError := svs.any (fun sv => !sv.result)
  let errorMsg := svs.foldl
    (fun m sv => if !sv.result then m ++ sv.message ++ "\n" else m) ""
  if raiseError then .error errorMsg else .ok ()

/-! ## Concrete inputs used by the claim theorems -/

/-- Decidable equality of `Except` results. -/
instance {ε α : Type} [DecidableEq ε] [DecidableEq α] :
    DecidableEq (Except ε α) := fun x y =>
  match x, y with
  | .error e, .error f =>
      if h : e = f then .isTrue (congrArg Except.error h)
      else .isFalse (fun hc => h (Except.error.inj hc))
  | .ok a, .ok b =>
      if h : a = b then .isTrue (congrArg Except.ok h)
      else .isFalse (fun hc => h (Except.ok.inj hc))
  | .error _, .ok _ => .isFalse (fun hc => Except.noConfusion hc)
  | .ok _, .error _ => .isFalse (fun hc => Except.noConfusion hc)

/-- A Builder tree with no dangling links: the root owns a dataset `d` and a
root-level soft link `L` whose target is that dataset, in the same file. -/
def c1Tree : Bldr :=
  .group "root" (some "test.h5") []
    []
    [.dataset "d" none [] none (.pyList [.int 1, .int 2, .int 3])]
    [⟨"L", "/d", some "test.h5"⟩]

/-- Read back what `write_builder` produced for `c1Tree`. -/
def c1ReadBack : Except Err RBuilder :=
  match (write_builder 100 "test.h5" c1Tree).file with
  | .ok (f, _) => ((read_builder 100 ⟨[("test.h5", f)]⟩ "test.h5").builder).map Prod.fst
  | .error e => .error e

/-- The integers `a, a+1, ..., b-1`, the values used by the chunked-growth
scenario. -/
def seg (a b : Nat) : List Int :=
  ((List.range b).drop a).map (fun n => (n : Int))

/-- The three chunks of the chunked-growth scenario: selections `[0:50]`,
`[50:120]`, `[120:137]`. -/
def c3Chunks : List Chunk1 :=
  [⟨.slc 0 (some 50), seg 0 50⟩, ⟨.slc 50 (some 120), seg 50 120⟩,
   ⟨.slc 120 (some 137), seg 120 137⟩]

/-- A file holding a dataset `/t` and a scalar region-reference dataset
`/r` whose value points into `/t`. -/
def c6File : HObj :=
  .group [("t", .dataset (.arr [.int 1, .int 2]) (some (.npType "int32")) []),
          ("r", .dataset (.regionRef "/t" (.slc 0 (some 1))) (some .regionRefT) [])] []

/-- The selection of the region-reference round-trip scenario. -/
def c7Sel : Sel1 := .slc 0 (some 1)

/-- A Builder tree with a dataset `t` and a region-reference dataset `r`
targeting `/t` with selection `c7Sel`. -/
def c7Tree : Bldr :=
  .group "root" (some "f.h5") []
    []
    [.dataset "t" none [] none (.pyList [.int 1, .int 2]),
     .dataset "r" none [] (some (.prim "region")) (.builderRef "/t" (some c7Sel))]
    []

/-- Read back what `write_builder` produced for `c7Tree`. -/
def c7ReadBack : Except Err RBuilder :=
  match (write_builder 100 "f.h5" c7Tree).file with
  | .ok (f, _) => ((read_builder 100 ⟨[("f.h5", f)]⟩ "f.h5").builder).map Prod.fst
  | .error e => .error e

/-- A small Builder tree that enqueues two deferred reference writes: an
object reference `/g/q` to `/g/t` and a region reference `/r` to `/g/t`. -/
def c5Tree : Bldr :=
  .group "root" (some "f.h5") [("a", .int 1)]
    [.group "g" none []
      [] [.dataset "t" none [] none (.pyList [.int 1, .int 2]),
          .dataset "q" none [] (some (.prim "object")) (.builderRef "/g/t" none)] []]
    [.dataset "r" none [] (some (.prim "region")) (.builderRef "/g/t" (some (.slc 0 (some 1))))]
    []

/-- The file produced by the main pass of `write_builder` on `c5Tree`. -/
def c5CoreRoot : HObj :=
  .group [("g", .group [("t", .dataset (.arr [.int 1, .int 2]) (some (.pyType "int")) [])] [])]
    [("a", .int 1)]

/-- The structural trace of the main pass of `write_builder` on `c5Tree`. -/
def c5MainEv : List WEvent :=
  [.createGroup "/g", .createDataset "/g/t", .setAttrs "/g/t", .setAttrs "/g",
   .setAttrs "/"]

/-- The deferred actions queued by the main pass of `write_builder` on
`c5Tree`, in enqueue order. -/
def c5Queue : List RefAct :=
  [.refFill "/g" "q" "/g/t" none .refT [],
   .refFill "" "r" "/g/t" (some (.slc 0 (some 1))) .regionRefT []]

/-- A Builder cached under the key `("f", "/t")` in the reuse scenario. -/
def c6CachedBuilder : RBuilder := .dataset "t" "f" [] none (.scalar (.int 1))

/-! ## Lemmas -/

set_option maxRecDepth 10000

theorem except_bind_ok {ε α β : Type} {x : Except ε α} {f : α → Except ε β} {b : β}
    (h : x.bind f = Except.ok b) : ∃ a, x = Except.ok a ∧ f a = Except.ok b := by
  cases x with
  | error e => simp [Except.bind] at h
  | ok a => exact ⟨a, rfl, by simpa [Except.bind] using h⟩

theorem nonzeroPositionsAux_append (x : Int) (xs : List Int) :
    ∀ i : Nat,
    nonzeroPositionsAux i (xs ++ [x]) =
      nonzeroPositionsAux i xs ++ (if x ≠ 0 then [i + xs.length] else []) := by
  induction xs with
  | nil => intro i; simp [nonzeroPositionsAux]
  | cons y ys ih =>
      intro i
      simp only [List.cons_append, nonzeroPositionsAux, List.append_eq]
      rw [ih (i + 1)]
      by_cases hy : y = 0 <;> by_cases hx : x = 0 <;>
        simp [hy, hx, List.length_cons] <;> omega

theorem nonzeroPositionsAux_nil_of_zero (xs : List Int) (h : ∀ x ∈ xs, x = 0) :
    ∀ i : Nat, nonzeroPositionsAux i xs = [] := by
  induction xs with
  | nil => intro i; rfl
  | cons y ys ih =>
      intro i
      have hy : y = 0 := h y (by simp)
      simp [nonzeroPositionsAux, hy, ih (fun x hx => h x (by simp [hx])) (i + 1)]

theorem nonzeroPositions_getLast_spec (xs : List Int) (p : Nat)
    (h : (nonzeroPositions xs).getLast? = some p) :
    xs.getD p 0 ≠ 0 ∧ ∀ q : Nat, p < q → xs.getD q 0 = 0 := by
  induction xs using List.reverseRecOn with
  | nil => simp [nonzeroPositions, nonzeroPositionsAux] at h
  | append_singleton ys y ih =>
      rw [nonzeroPositions, nonzeroPositionsAux_append] at h
      by_cases hy : y = 0
      · simp only [hy, ne_eq, not_true_eq_false, if_false, List.append_nil] at h
        obtain ⟨h1, h2⟩ := ih h
        have hplen : p < ys.length := by
          by_contra hge
          exact h1 (List.getD_eq_default _ _ (Nat.le_of_not_lt hge))
        refine ⟨?_, ?_⟩
        · rw [List.getD_append _ _ _ _ hplen]; exact h1
        · intro q hq
          by_cases hql : q < ys.length
          · rw [List.getD_append _ _ _ _ hql]; exact h2 q hq
          · rcases Nat.lt_or_ge q (ys ++ [y]).length with hlt | hge
            · have hqe : q = ys.length := by
                simp [List.length_append] at hlt
                omega
              rw [List.getD_append_right _ _ _ _ (by omega), hqe]
              simp [hy]
            · exact List.getD_eq_default _ _ hge
      · simp only [hy, ne_eq, not_false_eq_true, if_true, Nat.zero_add,
          List.getLast?_concat, Option.some.injEq] at h
        subst h
        refine ⟨?_, ?_⟩
        · rw [List.getD_append_right _ _ _ _ (Nat.le_refl _)]
          simpa using hy
        · intro q hq
          apply List.getD_eq_default
          simp [List.length_append]
          omega

theorem expandShape_length (shape : List Nat) :
    ∀ bounds : List (Option Nat), (expandShape shape bounds).length = shape.length := by
  induction shape with
  | nil => intro bounds; cases bounds <;> rfl
  | cons s ss ih =>
      intro bounds
      cases bounds with
      | nil => rfl
      | cons b bs => simp [expandShape, ih bs]

theorem expandShape_getD (shape : List Nat) :
    ∀ (bounds : List (Option Nat)) (i : Nat), i < shape.length →
    (expandShape shape bounds).getD i 0 =
      (match bounds.getD i none with
       | some v => if v > shape.getD i 0 then v else shape.getD i 0
       | none => shape.getD i 0) := by
  induction shape with
  | nil => intro bounds i h; simp at h
  | cons s ss ih =>
      intro bounds i h
      cases bounds with
      | nil => cases i <;> simp [expandShape]
      | cons b bs =>
          cases i with
          | zero => cases b <;> simp [expandShape]
          | succ i => simpa [expandShape] using ih bs i (by simpa using h)

theorem expandShape_getD_none (shape : List Nat) :
    ∀ (bounds : List (Option Nat)) (i : Nat), bounds.getD i none = none →
    (expandShape shape bounds).getD i 0 = shape.getD i 0 := by
  induction shape with
  | nil => intro bounds i h; cases bounds <;> simp [expandShape]
  | cons s ss ih =>
      intro bounds i h
      cases bounds with
      | nil => rfl
      | cons b bs =>
          cases i with
          | zero => simp_all [expandShape]
          | succ i => simpa [expandShape] using ih bs i (by simpa using h)

theorem refAct_event_isRefWrite (a : RefAct) : (RefAct.event a).isRefWrite = true := by
  cases a <;> rfl

theorem applyRefAct_event (file : HObj) (a : RefAct) (f' : HObj) (e : WEvent)
    (h : applyRefAct file a = .ok (f', e)) : e = a.event := by
  cases a with
  | refFill ppath name tpath region dt attrs =>
      simp only [applyRefAct] at h
      obtain ⟨r, hr, h⟩ := except_bind_ok h
      obtain ⟨f₁, hf, h⟩ := except_bind_ok h
      simp [RefAct.event] at h ⊢
      exact h.2.symm
  | rowsFill ppath name rs refIdxs dt attrs =>
      simp only [applyRefAct] at h
      obtain ⟨rs', hr, h⟩ := except_bind_ok h
      obtain ⟨f₁, hf, h⟩ := except_bind_ok h
      simp [RefAct.event] at h ⊢
      exact h.2.symm

theorem drainGo_events (q : List RefAct) :
    ∀ (f f' : HObj) (es : List WEvent),
    drainGo f q = .ok (f', es) → es = q.map RefAct.event := by
  induction q with
  | nil => intro f f' es h; simp [drainGo] at h; simp [h.2.symm]
  | cons a rest ih =>
      intro f f' es h
      simp only [drainGo] at h
      obtain ⟨⟨f₁, e⟩, h1, h⟩ := except_bind_ok h
      obtain ⟨⟨f₂, es'⟩, h2, h⟩ := except_bind_ok h
      simp at h
      obtain ⟨hf, hes⟩ := h
      subst hes
      rw [List.map_cons, applyRefAct_event f a f₁ e h1, ih f₁ f₂ es' h2]

theorem writeLinks_events (selfPath gpath : String) (ls : List LinkB) :
    ∀ (cs : List (String × HObj)) (es : List WEvent),
    writeLinks selfPath gpath ls = .ok (cs, es) →
    ∀ e ∈ es, e.isRefWrite = false := by
  induction ls with
  | nil =>
      intro cs es h e he
      simp only [writeLinks] at h
      cases h
      cases he
  | cons l rest ih =>
      intro cs es h e he
      simp only [writeLinks] at h
      obtain ⟨lobj, hl, h⟩ := except_bind_ok h
      obtain ⟨⟨cs2, es2⟩, h2, h⟩ := except_bind_ok h
      cases h
      cases he with
      | head => rfl
      | tail _ he2 => exact ih cs2 es2 h2 e he2

theorem mem_pair_events {e : WEvent} {p q : String}
    (he : e ∈ [WEvent.createDataset p, WEvent.setAttrs q]) :
    e.isRefWrite = false := by
  cases he with
  | head => rfl
  | tail _ he2 =>
      cases he2 with
      | head => rfl
      | tail _ he3 => cases he3

theorem writeDataset_events (selfPath ppath name : String)
    (attrs : List (String × PVal)) (dtype : Option Dtype) (dd : DData) :
    ∀ (cs : List (String × HObj)) (es : List WEvent) (rs : List RefAct),
    writeDataset selfPath ppath name attrs dtype dd = .ok (cs, es, rs) →
    ∀ e ∈ es, e.isRefWrite = false := by
  intro cs es rs h e he
  unfold writeDataset at h
  dsimp only at h
  split at h
  case h_1 =>
    split at h
    · split at h
      · obtain ⟨_, _, h⟩ := except_bind_ok h
        obtain ⟨_, _, h⟩ := except_bind_ok h
        cases h
        exact mem_pair_events he
      · simp at h
    · split at h
      · obtain ⟨_, _, h⟩ := except_bind_ok h
        cases h
        cases he
      · simp at h
  case h_2 =>
    split at h
    · obtain ⟨⟨n, obj⟩, _, h⟩ := except_bind_ok h
      cases h
      exact mem_pair_events he
    · obtain ⟨vals, _, h⟩ := except_bind_ok h
      cases h
      exact mem_pair_events he
    · cases h
      cases he with
      | head => rfl
      | tail _ he2 => cases he2
    · split at h
      · split at h
        · cases h
          cases he
        · simp at h
      · simp at h
    · simp at h
    · obtain ⟨⟨n, obj⟩, _, h⟩ := except_bind_ok h
      cases h
      exact mem_pair_events he
    · obtain ⟨⟨n, obj⟩, _, h⟩ := except_bind_ok h
      cases h
      exact mem_pair_events he

theorem writeRun_events (selfPath : String) :
    ∀ (fuel : Nat) (job : WJob) (cs : List (String × HObj)) (es : List WEvent)
      (rs : List RefAct),
    writeRun selfPath fuel job = .ok (cs, es, rs) →
    ∀ e ∈ es, e.isRefWrite = false := by
  intro fuel
  induction fuel with
  | zero => intro job cs es rs h e he; simp [writeRun] at h
  | succ fuel ih =>
      intro job cs es rs h e he
      match job with
      | .many [] ppath =>
          simp only [writeRun] at h
          cases h
          cases he
      | .many (b :: rest) ppath =>
          simp only [writeRun] at h
          obtain ⟨⟨c1, e1, r1⟩, h1, h⟩ := except_bind_ok h
          obtain ⟨⟨c2, e2, r2⟩, h2, h⟩ := except_bind_ok h
          cases h
          rcases List.mem_append.mp he with hm | hm
          · exact ih (.one b ppath) c1 e1 r1 h1 e hm
          · exact ih (.many rest ppath) c2 e2 r2 h2 e hm
      | .one (.dataset name src attrs dtype dd) ppath =>
          simp only [writeRun] at h
          exact writeDataset_events selfPath ppath name attrs dtype dd cs es rs h e he
      | .one (.group name src attrs gs ds ls) ppath =>
          simp only [writeRun] at h
          obtain ⟨⟨gc, ge, gr⟩, hg, h⟩ := except_bind_ok h
          obtain ⟨⟨dc, de, dr⟩, hd, h⟩ := except_bind_ok h
          obtain ⟨⟨lc, le⟩, hl, h⟩ := except_bind_ok h
          obtain ⟨children, hc, h⟩ := except_bind_ok h
          cases h
          cases he with
          | head => rfl
          | tail _ he2 =>
              rcases List.mem_append.mp he2 with hm | hm
              · rcases List.mem_append.mp hm with hm2 | hm2
                · rcases List.mem_append.mp hm2 with hm3 | hm3
                  · exact ih (.many gs (joinPath ppath name)) gc ge gr hg e hm3
                  · exact ih (.many ds (joinPath ppath name)) dc de dr hd e hm3
                · exact writeLinks_events selfPath (joinPath ppath name) ls lc le hl e hm2
              · simp at hm
                subst hm
                rfl

theorem writeBuilderCore_events (fuel : Nat) (selfPath : String) (T : Bldr) :
    ∀ (root : HObj) (mainEv : List WEvent) (queue : List RefAct),
    writeBuilderCore fuel selfPath T = .ok (root, mainEv, queue) →
    ∀ e ∈ mainEv, e.isRefWrite = false := by
  intro root mainEv queue h e he
  unfold writeBuilderCore at h
  split at h
  · simp at h
  · obtain ⟨⟨gc, ge, gr⟩, hg, h⟩ := except_bind_ok h
    obtain ⟨⟨dc, de, dr⟩, hd, h⟩ := except_bind_ok h
    obtain ⟨children, hc, h⟩ := except_bind_ok h
    cases h
    rcases List.mem_append.mp he with hm | hm
    · rcases List.mem_append.mp hm with hm2 | hm2
      · exact writeRun_events selfPath fuel (.many _ "") gc ge gr hg e hm2
      · exact writeRun_events selfPath fuel (.many _ "") dc de dr hd e hm2
    · simp at hm
      subst hm
      rfl

theorem lookupBuilt_append (l1 l2 : List (BKey × RBuilder)) (k : BKey) (v : RBuilder)
    (h : lookupBuilt l1 k = some v) : lookupBuilt (l1 ++ l2) k = some v := by
  induction l1 with
  | nil => simp [lookupBuilt] at h
  | cons p rest ih =>
      obtain ⟨k', b⟩ := p
      simp only [lookupBuilt, List.cons_append] at h ⊢
      by_cases hk : k' = k
      · simpa [hk] using h
      · rw [if_neg hk] at h ⊢
        exact ih h

theorem lookupBuilt_extend {l1 l2 : List (BKey × RBuilder)} (h : l1 <+: l2)
    (k : BKey) (v : RBuilder) (hv : lookupBuilt l1 k = some v) :
    lookupBuilt l2 k = some v := by
  obtain ⟨t, rfl⟩ := h
  exact lookupBuilt_append l1 t k v hv

theorem setBuilt_grows (built : List (BKey × RBuilder)) (k : BKey) (b : RBuilder) :
    built <+: setBuilt built k b := by
  unfold setBuilt
  split
  · exact ⟨[], List.append_nil _⟩
  · exact ⟨[(k, b)], rfl⟩

theorem setBuilt_preserves (built : List (BKey × RBuilder)) (k k' : BKey)
    (b v : RBuilder) (h : lookupBuilt built k = some v) :
    lookupBuilt (setBuilt built k' b) k = some v :=
  lookupBuilt_extend (setBuilt_grows built k' b) k v h

theorem readRun_built_grows (fs : FS) (selfPath : String) :
    ∀ (fuel : Nat) (job : RJob) (st : RState) (out : ROut) (st' : RState),
    readRun fs selfPath fuel job st = .ok (out, st') → st.built <+: st'.built := by
  intro fuel
  induction fuel with
  | zero => intro job st out st' h; simp [readRun] at h
  | succ fuel ih =>
      intro job st out st' h
      match job with
      | .obj o fpath opath name =>
          cases o with
          | group cs2 attrs =>
              simp only [readRun] at h
              obtain ⟨⟨out1, st1⟩, h1, h⟩ := except_bind_ok h
              have hpre := ih (.kids cs2 fpath opath ⟨[], [], []⟩) _ out1 st1 h1
              split at h
              · cases h; exact hpre
              · simp at h
          | dataset d dtype attrs =>
              cases d with
              | scalar v => simp only [readRun] at h; cases h; exact ⟨[], List.append_nil _⟩
              | objRef p => simp only [readRun] at h; cases h; exact ⟨[], List.append_nil _⟩
              | strList xs => simp only [readRun] at h; cases h; exact ⟨[], List.append_nil _⟩
              | arr xs => simp only [readRun] at h; cases h; exact ⟨[], List.append_nil _⟩
              | rows rs => simp only [readRun] at h; cases h; exact ⟨[], List.append_nil _⟩
              | regionRef tpath sel =>
                  simp only [readRun] at h
                  split at h
                  · simp at h
                  · split at h
                    · obtain ⟨⟨tout, st₁⟩, h1, h⟩ := except_bind_ok h
                      have hpre := ih (.obj _ fpath tpath (basename tpath)) _ tout st₁ h1
                      split at h
                      · cases h
                        exact hpre.trans (setBuilt_grows st₁.built (fpath, tpath) _)
                      · simp at h
                    · simp at h
          | softLink p => simp only [readRun] at h; simp at h
          | extLink lf p => simp only [readRun] at h; simp at h
      | .kids [] fpath gpath acc =>
          simp only [readRun] at h
          cases h
          exact ⟨[], List.append_nil _⟩
      | .kids ((k, c) :: rest) fpath gpath acc =>
          cases c with
          | softLink tpath =>
              simp only [readRun] at h
              split at h
              · simp at h
              · split at h
                · simp at h
                · split at h
                  · obtain ⟨⟨b2, st1⟩, hb, h⟩ := except_bind_ok h
                    cases hb
                    exact ih (.kids rest fpath gpath _) _ out st' h
                  · obtain ⟨⟨out1, st₁⟩, h1, h⟩ := except_bind_ok h
                    have hpre := ih (.obj _ _ tpath (basename tpath)) st out1 st₁ h1
                    split at h
                    · obtain ⟨⟨b2, st2⟩, hb, h⟩ := except_bind_ok h
                      cases hb
                      have hrest := ih (.kids rest fpath gpath _) _ out st' h
                      exact (hpre.trans (setBuilt_grows st₁.built _ _)).trans hrest
                    · obtain ⟨y, hy, _⟩ := except_bind_ok h
                      exact absurd hy (by simp)
          | extLink lf tpath =>
              simp only [readRun] at h
              split at h
              · simp at h
              · split at h
                · simp at h
                · split at h
                  · obtain ⟨⟨b2, st1⟩, hb, h⟩ := except_bind_ok h
                    cases hb
                    exact ih (.kids rest fpath gpath _) _ out st' h
                  · obtain ⟨⟨out1, st₁⟩, h1, h⟩ := except_bind_ok h
                    have hpre := ih (.obj _ _ tpath (basename tpath)) st out1 st₁ h1
                    split at h
                    · obtain ⟨⟨b2, st2⟩, hb, h⟩ := except_bind_ok h
                      cases hb
                      have hrest := ih (.kids rest fpath gpath _) _ out st' h
                      exact (hpre.trans (setBuilt_grows st₁.built _ _)).trans hrest
                    · obtain ⟨y, hy, _⟩ := except_bind_ok h
                      exact absurd hy (by simp)
          | group cs2 attrs =>
              simp only [readRun] at h
              split at h
              · obtain ⟨⟨b2, st1⟩, hb, h⟩ := except_bind_ok h
                cases hb
                exact ih (.kids rest fpath gpath _) _ out st' h
              · obtain ⟨⟨out1, st₁⟩, h1, h⟩ := except_bind_ok h
                have hpre := ih (.obj _ fpath (joinPath gpath k) k) st out1 st₁ h1
                split at h
                · obtain ⟨⟨b2, st2⟩, hb, h⟩ := except_bind_ok h
                  cases hb
                  have hrest := ih (.kids rest fpath gpath _) _ out st' h
                  exact (hpre.trans (setBuilt_grows st₁.built _ _)).trans hrest
                · obtain ⟨y, hy, _⟩ := except_bind_ok h
                  exact absurd hy (by simp)
          | dataset d dtype attrs =>
              simp only [readRun] at h
              split at h
              · obtain ⟨⟨b2, st1⟩, hb, h⟩ := except_bind_ok h
                cases hb
                exact ih (.kids rest fpath gpath _) _ out st' h
              · obtain ⟨⟨out1, st₁⟩, h1, h⟩ := except_bind_ok h
                have hpre := ih (.obj _ fpath (joinPath gpath k) k) st out1 st₁ h1
                split at h
                · obtain ⟨⟨b2, st2⟩, hb, h⟩ := except_bind_ok h
                  cases hb
                  have hrest := ih (.kids rest fpath gpath _) _ out st' h
                  exact (hpre.trans (setBuilt_grows st₁.built _ _)).trans hrest
                · obtain ⟨y, hy, _⟩ := except_bind_ok h
                  exact absurd hy (by simp)


/-! ## Claim theorems -/

/-- C1 (code_bug evidence): the round-trip claim fails on the code.
`c1Tree` has no dangling links: its root owns dataset `/d` and a root-level
link `L` to that dataset.  `write_builder` (h5tools.py lines 186-194) writes
the root's groups and datasets and sets its attributes, but has no loop over
the root's links (unlike `write_group`, lines 307-310), so `L` is silently
dropped: reading the written file back yields a tree whose root has an EMPTY
links map, not structurally equivalent to `c1Tree`. -/
theorem c1_round_trip_drops_root_links :
    c1ReadBack = .ok (.group "root" "test.h5" [] []
      [("d", .dataset "d" "test.h5" [] (some (.pyType "int")) (.handle "test.h5" "/d"))]
      []) ∧
    c1ReadBack.map RBuilder.linksOf = .ok [] ∧
    Bldr.linksOf c1Tree = [⟨"L", "/d", some "test.h5"⟩] :=
  ⟨by rfl, by rfl, rfl⟩

/-- C2 (amended): a descriptor that the `__dtypes` table resolves (helper
returns a concrete type) is mapped to that type without inspecting the data;
a primitive tag ABSENT from the table (e.g. `uint64`) makes the helper
return `None` and resolution falls back to data introspection.  With no
descriptor: a string maps to variable-length text, resolution recurses into
the first element of a sized collection, an empty sized collection fails
with the cannot-determine-type error, and `[1.5, 2.5]` resolves to a
floating-point type. -/
theorem c2_dtype_resolution :
    (∀ (d : Dtype) (t : HType) (data : PyData),
        resolveDtypeHelper (some d) = .ok (some t) →
        resolveDtype (some d) data = .ok t) ∧
    (∀ s : String, resolveDtype none (.str s) = .ok .vlenText) ∧
    (∀ (x : PyData) (xs : List PyData),
        resolveDtype none (.list (x :: xs)) = get_type x) ∧
    (resolveDtype none (.list []) =
      .error "cannot determine type for empty data") ∧
    ((resolveDtype none (.list [.float (3/2), .float (5/2)])).map HType.isFloat
      = .ok true) := by
  refine ⟨?_, fun _ => rfl, fun _ _ => rfl, rfl, rfl⟩
  intro d t data h
  simp [resolveDtype, h]
  rfl

/-- C2 witness: a table-resolved descriptor determines the type. -/
theorem c2_dtype_resolution_witness :
    resolveDtype (some (.prim "text")) (.int 7) = .ok .vlenText :=
  c2_dtype_resolution.1 (.prim "text") .vlenText (.int 7) rfl

/-- C2 counterexample: `uint64` is one of the spec's primitive tags
(8/16/32/64-bit unsigned), yet it is absent from the `__dtypes` table, so
`__resolve_dtype__` inspects the data even though the descriptor is not
`None`: the same descriptor yields different types for different data. -/
theorem c2_descriptor_priority_cex :
    resolveDtype (some (.prim "uint64")) (.str "a") = .ok .vlenText ∧
    resolveDtype (some (.prim "uint64")) (.list [.float (3/2)]) = .ok (.pyType "float") ∧
    HType.vlenText ≠ HType.pyType "float" :=
  ⟨rfl, rfl, fun h => nomatch h⟩

/-- C3 (amended): an integer selection yields `index+1`; a slice yields its
`stop`; a list selection yields one past the position of its LAST NONZERO
ENTRY (`np.nonzero(selection)[0][-1]+1`) — which for a boolean mask is one
past the highest selected position, but is NOT one past the highest selected
index for an integer fancy-index list — and raises when the list has no
nonzero entry; a tuple selection recurses per dimension; the dataset grows
exactly along the dimensions whose bound exceeds the current extent; and the
`[0:50]`, `[50:120]`, `[120:137]` scenario on an initially-empty unbounded
dataset ends with extent 137 holding the chunks in selection order. -/
theorem c3_chunked_write :
    (∀ i : Nat, selMaxBound1 (.idx i) = .ok (some (i + 1))) ∧
    (∀ (a : Nat) (stop : Option Nat), selMaxBound1 (.slc a stop) = .ok stop) ∧
    (∀ (xs : List Int) (p : Nat),
        (nonzeroPositions xs).getLast? = some p →
        xs.getD p 0 ≠ 0 ∧ (∀ q : Nat, p < q → xs.getD q 0 = 0) ∧
        selMaxBound1 (.arr xs) = .ok (some (p + 1))) ∧
    (∀ xs : List Int, (∀ x ∈ xs, x = 0) →
        selMaxBound1 (.arr xs) = .error "IndexError: index -1 is out of bounds") ∧
    (∀ (s : Sel1) (ss : List Sel1) (b : Option Nat) (bs : List (Option Nat)),
        selMaxBound1 s = .ok b → selMaxBounds (.tup ss) = .ok bs →
        selMaxBounds (.tup (s :: ss)) = .ok (b :: bs)) ∧
    (∀ (shape : List Nat) (bounds : List (Option Nat)),
        (expandShape shape bounds).length = shape.length ∧
        (∀ i : Nat, i < shape.length →
          (expandShape shape bounds).getD i 0 =
            (match bounds.getD i none with
             | some v => if v > shape.getD i 0 then v else shape.getD i 0
             | none => shape.getD i 0))) ∧
    chunkedIterFill1 0 c3Chunks = .ok (seg 0 137) ∧
    (seg 0 137).length = 137 := by
  refine ⟨fun _ => rfl, fun _ _ => rfl, ?_, ?_, ?_, ?_, by decide, by decide⟩
  · intro xs p h
    obtain ⟨h1, h2⟩ := nonzeroPositions_getLast_spec xs p h
    exact ⟨h1, h2, by simp [selMaxBound1, h]⟩
  · intro xs h
    simp [selMaxBound1, nonzeroPositions, nonzeroPositionsAux_nil_of_zero xs h 0]
  · intro s ss b bs hb hbs
    simp only [selMaxBounds] at hbs ⊢
    simp [selMaxBounds.selMaxBoundsList, hb, hbs]
    rfl
  · intro shape bounds
    exact ⟨expandShape_length shape bounds, fun i h => expandShape_getD shape bounds i h⟩

/-- C3 witness: for the boolean mask `[0,1,1,0]` the computed bound is one
past the highest selected position. -/
theorem c3_chunked_write_witness :
    selMaxBound1 (.arr [0, 1, 1, 0]) = .ok (some 3) :=
  (c3_chunked_write.2.2.1 [0, 1, 1, 0] 2 rfl).2.2

/-- C3 counterexample: for the fancy integer index list `[2, 5, 7]` (highest
selected position 7) the code computes `np.nonzero([2,5,7])[0][-1]+1 = 3`,
not one past the highest selected position (8). -/
theorem c3_fancy_index_bound_cex :
    selMaxBound1 (.arr [2, 5, 7]) = .ok (some 3) ∧ (3 : Nat) ≠ 7 + 1 :=
  ⟨rfl, by decide⟩

/-- C4: `write_link` writes a soft link exactly for a target whose source
equals the containing file, an external link (addressed by that source plus
the target's path) exactly for a known different source, and fails with the
cannot-link error exactly when the target has no known source. -/
theorem c4_write_link :
    (∀ f p : String, write_link f (some f) p = .ok (.soft p)) ∧
    (∀ (f s p : String), s ≠ f → write_link f (some s) p = .ok (.external s p)) ∧
    (∀ f p : String, write_link f none p =
      .error ("cannot create external link to " ++ p)) ∧
    (∀ (f p : String) (src : Option String),
        (∃ e, write_link f src p = .error e) ↔ src = none) := by
  refine ⟨?_, ?_, fun _ _ => rfl, ?_⟩
  · intro f p; simp [write_link]
  · intro f s p h; simp [write_link, h]
  · intro f p src
    constructor
    · rintro ⟨e, he⟩
      match src with
      | none => rfl
      | some s =>
          by_cases hs : s = f
          · subst hs; simp [write_link] at he
          · simp [write_link, hs] at he
    · rintro rfl
      exact ⟨_, rfl⟩

/-- C4 witness: a cross-file target with a known source becomes an external
link. -/
theorem c4_write_link_witness :
    write_link "a.h5" (some "b.h5") "/x" = .ok (.external "b.h5" "/x") :=
  c4_write_link.2.1 "a.h5" "b.h5" "/x" (by decide)

/-- C5: every event of the main structural pass of `write_builder` is a
structural write (never a deferred reference write); draining the queue
executes the queued actions in reverse enqueue order (LIFO, `list.pop()`)
until the queue is empty, producing exactly one reference write per queued
action; and a successful `write_builder` trace is the structural trace
followed by the drained reference writes. -/
theorem c5_deferred_reference_ordering :
    (∀ (fuel : Nat) (selfPath : String) (T : Bldr) (root : HObj)
        (mainEv : List WEvent) (queue : List RefAct),
        writeBuilderCore fuel selfPath T = .ok (root, mainEv, queue) →
        ∀ e ∈ mainEv, e.isRefWrite = false) ∧
    (∀ (f f' : HObj) (queue : List RefAct) (refEv : List WEvent),
        addRefs f queue = .ok (f', refEv) →
        refEv = queue.reverse.map RefAct.event ∧ ∀ e ∈ refEv, e.isRefWrite = true) ∧
    (∀ (fuel : Nat) (selfPath : String) (T : Bldr) (root : HObj) (trace : List WEvent),
        (write_builder fuel selfPath T).file = .ok (root, trace) →
        ∃ (root₀ : HObj) (mainEv : List WEvent) (queue : List RefAct),
          writeBuilderCore fuel selfPath T = .ok (root₀, mainEv, queue) ∧
          trace = mainEv ++ queue.reverse.map RefAct.event) := by
  refine ⟨writeBuilderCore_events, ?_, ?_⟩
  · intro f f' queue refEv h
    have hev := drainGo_events queue.reverse f f' refEv h
    refine ⟨hev, ?_⟩
    intro e he
    rw [hev] at he
    obtain ⟨a, _, rfl⟩ := List.mem_map.mp he
    exact refAct_event_isRefWrite a
  · intro fuel selfPath T root trace h
    simp only [write_builder] at h
    obtain ⟨⟨root₀, mainEv, queue⟩, hcore, h⟩ := except_bind_ok h
    obtain ⟨⟨root₁, refEv⟩, hadd, h⟩ := except_bind_ok h
    cases h
    exact ⟨root₀, mainEv, queue, hcore,
      by rw [drainGo_events queue.reverse root₀ root₁ refEv hadd]⟩

/-- C5 witness: on `c5Tree` (which queues one object reference and one
region reference) the main pass is the concrete structural trace `c5MainEv`
with queue `c5Queue`, and its first event is structural. -/
theorem c5_deferred_reference_ordering_witness :
    WEvent.isRefWrite (.createGroup "/g") = false :=
  c5_deferred_reference_ordering.1 100 "f.h5" c5Tree c5CoreRoot c5MainEv c5Queue
    (by rfl) (.createGroup "/g") (by decide)

/-- C6 (amended): the Builder cache never evicts or replaces an entry —
`__set_built` is a `setdefault`, and any read step only extends the cache —
and every group-traversal encounter of a cached `(file, path)` key (a plain
child, or a soft- or external-link target) reuses the cached Builder without
constructing a new one.  (The target of a scalar region reference is the
exception, refuted separately: `__read_dataset` re-reads it with no cache
lookup.) -/
theorem c6_builder_cache :
    (∀ (built : List (BKey × RBuilder)) (k k' : BKey) (b v : RBuilder),
        lookupBuilt built k = some v →
        lookupBuilt (setBuilt built k' b) k = some v) ∧
    (∀ (fs : FS) (selfPath : String) (fuel : Nat) (job : RJob) (st : RState)
        (out : ROut) (st' : RState),
        readRun fs selfPath fuel job st = .ok (out, st') →
        ∀ (k : BKey) (v : RBuilder),
          lookupBuilt st.built k = some v → lookupBuilt st'.built k = some v) ∧
    (∀ (fs : FS) (selfPath : String) (fuel : Nat) (k : String) (d : HData)
        (dt : Option HType) (ats : List (String × PVal))
        (rest : List (String × HObj)) (fpath gpath : String) (acc : RAcc)
        (st : RState) (b : RBuilder),
        lookupBuilt st.built (fpath, joinPath gpath k) = some b →
        readRun fs selfPath (fuel + 1)
            (.kids ((k, .dataset d dt ats) :: rest) fpath gpath acc) st =
          readRun fs selfPath fuel (.kids rest fpath gpath (accInsert acc true b)) st) ∧
    (∀ (fs : FS) (selfPath : String) (fuel : Nat) (k : String)
        (cs : List (String × HObj)) (ats : List (String × PVal))
        (rest : List (String × HObj)) (fpath gpath : String) (acc : RAcc)
        (st : RState) (b : RBuilder),
        lookupBuilt st.built (fpath, joinPath gpath k) = some b →
        readRun fs selfPath (fuel + 1)
            (.kids ((k, .group cs ats) :: rest) fpath gpath acc) st =
          readRun fs selfPath fuel (.kids rest fpath gpath (accInsert acc false b)) st) ∧
    (∀ (fs : FS) (selfPath : String) (fuel : Nat) (k tpath : String)
        (troot tobj : HObj) (rest : List (String × HObj)) (fpath gpath : String)
        (acc : RAcc) (st : RState) (b : RBuilder),
        alookup fs.files fpath = some troot →
        resolvePath troot tpath = some tobj →
        lookupBuilt st.built (fpath, tpath) = some b →
        readRun fs selfPath (fuel + 1)
            (.kids ((k, .softLink tpath) :: rest) fpath gpath acc) st =
          readRun fs selfPath fuel (.kids rest fpath gpath
            { acc with links := aset acc.links (basename tpath) (.link k b selfPath) }) st) ∧
    (∀ (fs : FS) (selfPath : String) (fuel : Nat) (k lf tpath : String)
        (troot tobj : HObj) (rest : List (String × HObj)) (fpath gpath : String)
        (acc : RAcc) (st : RState) (b : RBuilder),
        alookup fs.files lf = some troot →
        resolvePath troot tpath = some tobj →
        lookupBuilt st.built (lf, tpath) = some b →
        readRun fs selfPath (fuel + 1)
            (.kids ((k, .extLink lf tpath) :: rest) fpath gpath acc) st =
          readRun fs selfPath fuel (.kids rest fpath gpath
            { acc with links := aset acc.links (basename tpath) (.link k b selfPath) }) st) := by
  refine ⟨?_, ?_, ?_, ?_, ?_, ?_⟩
  · intro built k k' b v h
    exact setBuilt_preserves built k k' b v h
  · intro fs selfPath fuel job st out st' h k v hv
    exact lookupBuilt_extend (readRun_built_grows fs selfPath fuel job st out st' h) k v hv
  · intro fs selfPath fuel k d dt ats rest fpath gpath acc st b h
    simp only [readRun, h]
    rfl
  · intro fs selfPath fuel k cs ats rest fpath gpath acc st b h
    simp only [readRun, h]
    rfl
  · intro fs selfPath fuel k tpath troot tobj rest fpath gpath acc st b h1 h2 h3
    simp only [readRun, h1, h2, h3]
    rfl
  · intro fs selfPath fuel k lf tpath troot tobj rest fpath gpath acc st b h1 h2 h3
    simp only [readRun, h1, h2, h3]
    rfl

/-- C6 witness: a dataset child whose key is cached is taken from the cache
and filed into the accumulator, with no fresh construction. -/
theorem c6_builder_cache_witness :
    readRun ⟨[]⟩ "f" 2
        (.kids [("t", .dataset (.scalar (.int 1)) none [])] "f" "/" ⟨[], [], []⟩)
        ⟨[(("f", "/t"), c6CachedBuilder)], []⟩ =
      readRun ⟨[]⟩ "f" 1 (.kids [] "f" "/" (accInsert ⟨[], [], []⟩ true c6CachedBuilder))
        ⟨[(("f", "/t"), c6CachedBuilder)], []⟩ :=
  c6_builder_cache.2.2.1 ⟨[]⟩ "f" 1 "t" (.scalar (.int 1)) none [] [] "f" "/"
    ⟨[], [], []⟩ ⟨[(("f", "/t"), c6CachedBuilder)], []⟩ c6CachedBuilder (by rfl)

/-- C6 counterexample: reading `c6File` (dataset `/t` plus a scalar
region-reference dataset `/r` targeting `/t`) constructs a Builder for
`("f.h5", "/t")` TWICE — once as a plain child and once when
`__read_dataset` re-reads the region-reference target with no cache lookup
(h5tools.py lines 162-164) — refuting "at most one Builder is ever
constructed per key". -/
theorem c6_region_target_rebuilt_cex :
    ((read_builder 100 ⟨[("f.h5", c6File)]⟩ "f.h5").builder.map (fun p => p.2.log)) =
      .ok [("f.h5", "/"), ("f.h5", "/t"), ("f.h5", "/r"), ("f.h5", "/t")] ∧
    List.count (("f.h5", "/t") : BKey)
      [("f.h5", "/"), ("f.h5", "/t"), ("f.h5", "/r"), ("f.h5", "/t")] = 2 :=
  ⟨by rfl, by decide⟩

/-- C7: creating a region reference against a path that resolves to a group
fails with the cannot-create-region-reference error; against a dataset it
succeeds carrying the selection; and the region-reference dataset written
for `c7Tree` round-trips on read to a RegionBuilder with the same selection
`c7Sel` and the referenced dataset `/t`. -/
theorem c7_region_reference :
    (∀ (file : HObj) (path : String) (sel : Sel1) (cs : List (String × HObj))
        (ats : List (String × PVal)),
        resolvePath file path = some (.group cs ats) →
        getRef file path (some sel) =
          .error "cannot create region reference without Dataset") ∧
    (∀ (file : HObj) (path : String) (sel : Sel1) (d : HData) (dt : Option HType)
        (ats : List (String × PVal)),
        resolvePath file path = some (.dataset d dt ats) →
        getRef file path (some sel) = .ok (.region path sel)) ∧
    c7ReadBack = .ok (.group "root" "f.h5" [] []
      [("t", .dataset "t" "f.h5" [] (some (.pyType "int")) (.handle "f.h5" "/t")),
       ("r", .region "r" "f.h5" [] c7Sel
          (.dataset "t" "f.h5" [] (some (.pyType "int")) (.handle "f.h5" "/t")))]
      []) := by
  refine ⟨?_, ?_, by rfl⟩
  · intro file path sel cs ats h; simp [getRef, h]
  · intro file path sel d dt ats h; simp [getRef, h]

/-- C7 witness: a region reference against a group target fails. -/
theorem c7_region_reference_witness :
    getRef (.group [("g", .group [] [])] []) "/g" (some c7Sel) =
      .error "cannot create region reference without Dataset" :=
  c7_region_reference.1 (.group [("g", .group [] [])] []) "/g" c7Sel [] [] rfl

/-- C8: the FeatureExtraction shape validation accepts features (10,5,3)
with times 10, electrodes 5, description 3; rejects times 9 with a message
naming `times` and axis 0; and reports two simultaneous mismatches in one
combined message rather than failing on the first. -/
theorem c8_feature_extraction_shape_validation :
    featureExtractionInit 5 3 10 [10, 5, 3] = .ok () ∧
    featureExtractionInit 5 3 9 [10, 5, 3] =
      .error "feature_shape axis 0 and times axis 0 do not match\n" ∧
    featureExtractionInit 4 3 9 [10, 5, 3] =
      .error ("feature_shape axis 0 and times axis 0 do not match\n" ++
              "feature_shape axis 1 and electrodes axis 0 do not match\n") :=
  ⟨rfl, by decide, by decide⟩

/-- C9 (amended): the file handle is acquired at the start of
`write_builder` / `read_builder` but released on NO exit path: neither
method invokes `close`, so the handle is still open at every exit. -/
theorem c9_handle_never_released :
    (∀ (fuel : Nat) (selfPath : String) (T : Bldr),
        (write_builder fuel selfPath T).fileOpen = true) ∧
    (∀ (fuel : Nat) (fs : FS) (selfPath : String),
        (read_builder fuel fs selfPath).fileOpen = true) :=
  ⟨fun _ _ _ => rfl, fun _ _ _ => rfl⟩

/-- C9 counterexample: a concrete successful write session and a concrete
successful read session both end with the handle still open, contradicting
"the handle is released on every exit path". -/
theorem c9_exit_leaves_handle_open_cex :
    (write_builder 100 "test.h5" (.group "root" none [] [] [] [])).fileOpen = true ∧
    (read_builder 100 ⟨[("test.h5", .group [] [])]⟩ "test.h5").fileOpen = true :=
  ⟨rfl, rfl⟩

/-- C10: a slice with no upper bound has bound `None`; a `None` bound never
grows its dimension; and a chunk whose selection is an unbounded slice is
written into the dataset's existing extent, leaving the extent unchanged. -/
theorem c10_unbounded_slice_no_growth :
    (∀ a : Nat, selMaxBound1 (.slc a none) = .ok none) ∧
    (∀ (shape : List Nat) (bounds : List (Option Nat)) (i : Nat),
        bounds.getD i none = none →
        (expandShape shape bounds).getD i 0 = shape.getD i 0) ∧
    (∀ (d vals : List Int) (a : Nat),
        a ≤ d.length → vals.length = d.length - a →
        fillChunk1 d ⟨.slc a none, vals⟩ = .ok (d.take a ++ vals) ∧
        (d.take a ++ vals).length = d.length) := by
  refine ⟨fun _ => rfl, ?_, ?_⟩
  · intro shape bounds i h; exact expandShape_getD_none shape bounds i h
  · intro d vals a ha hv
    have hfc : fillChunk1 d ⟨.slc a none, vals⟩ = writeSel1 d (.slc a none) vals := by
      calc fillChunk1 d ⟨.slc a none, vals⟩
          = writeSel1 (resize1 d d.length) (.slc a none) vals := rfl
        _ = writeSel1 d (.slc a none) vals := by simp [resize1]
    constructor
    · rw [hfc]
      simp [writeSel1, ha, hv, List.drop_length]
    · simp [List.length_append, List.length_take]
      omega

/-- C10 witness: writing `[9,9]` at `[1:]` into a dataset of extent 3
leaves the extent at 3. -/
theorem c10_unbounded_slice_no_growth_witness :
    fillChunk1 [1, 2, 3] ⟨.slc 1 none, [9, 9]⟩ = .ok [1, 9, 9] ∧
    ([1, 9, 9] : List Int).length = 3 := by
  have h := c10_unbounded_slice_no_growth.2.2 [1, 2, 3] [9, 9] 1 (by decide) (by decide)
  exact ⟨h.1, h.2⟩
